import Mathlib

/-!
# Verification of the Chatti chat-server core (server.js + database.js)

Shallow embedding of the server-side session/room coordinator:
the SQLite-backed room catalog and message store (database.js) and the
socket event handlers (server.js).  Timestamps are modelled as natural
numbers; every `new Date().toISOString()` read and every SQLite
`CURRENT_TIMESTAMP` default is an environment input threaded through the
events.  Connection identifiers (socket ids) are natural numbers, room
names and message texts are strings.
-/

/-- A row of the `rooms` table: `id INTEGER PRIMARY KEY AUTOINCREMENT`,
`name TEXT UNIQUE NOT NULL`.  `created_at` carries no information used by
any modelled query (`ORDER BY created_at` coincides with insertion order,
which the row list keeps), so it is omitted. -/
structure Room where
  id : Nat
  name : String
  deriving Repr, DecidableEq

/-- A row of the `messages` table.  `timestamp` is the value SQLite's
`CURRENT_TIMESTAMP` default assigned at insert time. -/
structure Msg where
  id : Nat
  room_id : Nat
  username : String
  text : String
  timestamp : Nat
  deriving Repr, DecidableEq

/-- The SQLite database state: both tables in row-insertion order plus the
next AUTOINCREMENT id of each. -/
structure DB where
  rooms : List Room
  nextRoomId : Nat
  messages : List Msg
  nextMsgId : Nat
  deriving Repr, DecidableEq

/-- The empty database right after `CREATE TABLE IF NOT EXISTS`
(AUTOINCREMENT starts at 1). -/
def DB.empty : DB := { rooms := [], nextRoomId := 1, messages := [], nextMsgId := 1 }

/-- The object `database.saveMessage` returns on success:
`id` is `result.lastInsertRowid.toString()`, `timestamp` is
`new Date().toISOString()` (the application clock, NOT the stored value). -/
structure SavedMsg where
  id : String
  room_id : Nat
  username : String
  text : String
  timestamp : Nat
  deriving Repr, DecidableEq

/-- An element of `database.getMessagesByRoom`: `id` is `row.id.toString()`,
`room` is the joined `r.name`, `timestamp` the stored column value. -/
structure HistMsg where
  id : String
  text : String
  username : String
  room : String
  timestamp : Nat
  deriving Repr, DecidableEq

namespace database

/-- Comparison for `ORDER BY timestamp`; ties on the second-resolution
`DATETIME` column are resolved by rowid (insertion order), the order in
which SQLite's `idx_messages_timestamp` index stores equal keys.  This is
the tie-break both sorted queries below rely on. -/
def msgLe (a b : Msg) : Bool :=
  Nat.blt a.timestamp b.timestamp ||
    (a.timestamp == b.timestamp && Nat.ble a.id b.id)

/-- Insert one message into a list sorted ascending by `msgLe`. -/
def insertByTs (m : Msg) : List Msg → List Msg
  | [] => [m]
  | x :: xs => if msgLe m x then m :: x :: xs else x :: insertByTs m xs

/-- Sort a message list ascending by `(timestamp, id)` (insertion sort). -/
def sortByTs (l : List Msg) : List Msg := l.foldr insertByTs []

/-- Embeds `INSERT OR IGNORE INTO rooms (name) VALUES (?)`; returns
`result.changes > 0` together with the new database. -/
def createRoom (db : DB) (name : String) : Bool × DB :=
  if db.rooms.any (fun r => r.name == name) then (false, db)
  else
    (true, { db with
      rooms := db.rooms ++ [{ id := db.nextRoomId, name := name }],
      nextRoomId := db.nextRoomId + 1 })

/-- Embeds `SELECT * FROM rooms WHERE name = ?` (names are UNIQUE, so the first
match is the only one). -/
def getRoomByName (db : DB) (name : String) : Option Room :=
  db.rooms.find? (fun r => r.name == name)

/-- Embeds `SELECT * FROM rooms ORDER BY created_at` — creation order, which is
the row-insertion order the list keeps. -/
def getAllRooms (db : DB) : List Room := db.rooms

/-- Embeds `database.roomExists`. -/
def roomExists (db : DB) (name : String) : Bool :=
  (getRoomByName db name).isSome

/-- Embeds `DELETE FROM messages WHERE room_id = ? AND id NOT IN (SELECT id FROM
messages WHERE room_id = ? ORDER BY timestamp DESC LIMIT 100)`: keep, for
the given room, only the 100 most recent messages by `(timestamp, id)`
descending; other rooms' messages are untouched. -/
def deleteOldMessages (db : DB) (rid : Nat) : DB :=
  let keep : List Nat :=
    (((sortByTs (db.messages.filter (fun m => m.room_id == rid))).reverse).take 100).map
      (fun m => m.id)
  { db with
    messages := db.messages.filter (fun m => m.room_id != rid || keep.contains m.id) }

/-- Embeds `database.saveMessage(roomName, username, text)`: `null` when the room
is absent; otherwise inserts the row (SQLite assigns `dbNow` via the
`CURRENT_TIMESTAMP` default), runs `deleteOldMessages`, and returns the
object rebuilt in application code, whose `timestamp` is the application
clock `appNow` (`new Date().toISOString()`), not the stored column. -/
def saveMessage (db : DB) (roomName username text : String) (dbNow appNow : Nat) :
    Option (SavedMsg × DB) :=
  match getRoomByName db roomName with
  | none => none
  | some room =>
    let inserted : Msg :=
      { id := db.nextMsgId, room_id := room.id, username := username,
        text := text, timestamp := dbNow }
    let db1 : DB :=
      { db with messages := db.messages ++ [inserted], nextMsgId := db.nextMsgId + 1 }
    let db2 := deleteOldMessages db1 room.id
    some ({ id := toString db.nextMsgId, room_id := room.id, username := username,
            text := text, timestamp := appNow }, db2)

/-- The row set of the history query
`SELECT m.*, r.name FROM messages m JOIN rooms r ON m.room_id = r.id
WHERE r.name = ? ORDER BY m.timestamp LIMIT 100`, before the JS field
mapping (names are UNIQUE so the JOIN binds the single matching room). -/
def getMessagesRows (db : DB) (roomName : String) : List Msg :=
  match getRoomByName db roomName with
  | none => []
  | some room => (sortByTs (db.messages.filter (fun m => m.room_id == room.id))).take 100

/-- Embeds `database.getMessagesByRoom`: the rows mapped to the public shape,
each `id` converted to a decimal string by `row.id.toString()`. -/
def getMessagesByRoom (db : DB) (roomName : String) : List HistMsg :=
  (getMessagesRows db roomName).map (fun row =>
    { id := toString row.id, text := row.text, username := row.username,
      room := roomName, timestamp := row.timestamp })

/-- Embeds `database.getMessageCount`: `SELECT COUNT(*) ... JOIN ... WHERE r.name = ?`;
0 when the room is absent. -/
def getMessageCount (db : DB) (roomName : String) : Nat :=
  match getRoomByName db roomName with
  | none => 0
  | some room => (db.messages.filter (fun m => m.room_id == room.id)).length

/-- Embeds `database.initDefaultRooms`: create each default room in order. -/
def initDefaultRooms (db : DB) (defaultRooms : List String) : DB :=
  defaultRooms.foldl (fun d n => (createRoom d n).2) db

end database

/-- Per-connection ephemeral state (`socket.data`): the generated display
name and the nullable current room. -/
structure Session where
  username : String
  currentRoom : Option String
  deriving Repr, DecidableEq

/-- Whole-server state: the database, the in-memory presence map
`roomUsers : Map<room name, Set<socket id>>` and the per-socket sessions.
Both maps are modelled as functions returning `none` for absent keys; a
JS `Set` of socket ids is a duplicate-free list in insertion order. -/
structure ServerState where
  db : DB
  roomUsers : String → Option (List Nat)
  sessions : Nat → Option Session

/-- The occupant set of a room as the code reads it:
`roomUsers.get(room)?.size || 0` style access, empty when untracked. -/
def members (s : ServerState) (room : String) : List Nat :=
  (s.roomUsers room).getD []

/-- Embeds `roomUsers.get(room)?.delete(cid)` — a no-op when the room has no set. -/
def removeFrom (ru : String → Option (List Nat)) (room : String) (cid : Nat) :
    String → Option (List Nat) :=
  fun x => if x = room then (ru room).map (fun l => l.filter (fun y => y != cid)) else ru x

/-- Embeds `if (!roomUsers.has(room)) roomUsers.set(room, new Set()); roomUsers.get(room).add(cid)`. -/
def addTo (ru : String → Option (List Nat)) (room : String) (cid : Nat) :
    String → Option (List Nat) :=
  fun x =>
    if x = room then
      let l := (ru room).getD []
      some (if cid ∈ l then l else l ++ [cid])
    else ru x

/-- Embeds `roomUsers.set(room, new Set())` — unconditional overwrite with an empty set. -/
def setEmpty (ru : String → Option (List Nat)) (room : String) :
    String → Option (List Nat) :=
  fun x => if x = room then some [] else ru x

/-- Audience of one `emit` call: `socket.emit` (caller only),
`socket.to(room).emit` (the room's sockets minus the sender),
`io.to(room).emit` (the room's sockets, sender included), `io.emit`
(every connected socket). -/
inductive Aud where
  | caller (cid : Nat)
  | roomOthers (room : String) (cid : Nat)
  | room (room : String)
  | all
  deriving Repr, DecidableEq

/-- The room/user/message-count triple sent in catalog events. -/
structure RoomInfo where
  name : String
  userCount : Nat
  messageCount : Nat
  deriving Repr, DecidableEq

/-- Payload of an outbound event, one constructor per event name. -/
inductive Payload where
  | roomsList (rooms : List RoomInfo)
  | errorMsg (message : String)
  | messageHistory (messages : List HistMsg)
  | joinedRoom (room username : String)
  | userJoined (username message : String) (timestamp : Nat)
  | userLeft (username message : String) (timestamp : Nat)
  | userTyping (username : String) (isTyping : Bool)
  | newMessage (m : HistMsg)
  | roomUpdated (info : RoomInfo)
  | roomCreated (info : RoomInfo)
  | roomCreatedSuccess (roomName : String)
  deriving Repr, DecidableEq

/-- One outbound emission: audience plus payload. -/
structure Emit where
  aud : Aud
  pay : Payload
  deriving Repr, DecidableEq

/-- Whether a given connection is a recipient of an emission with the given
audience, evaluated against a server state (socket.io room membership
coincides with the presence sets: `socket.join`/`socket.leave` are called
exactly where the set is mutated). -/
def receives (s : ServerState) (a : Aud) (c : Nat) : Prop :=
  match a with
  | .caller x => c = x
  | .roomOthers room x => c ∈ members s room ∧ c ≠ x
  | .room room => c ∈ members s room
  | .all => s.sessions c ≠ none

/-- The `rooms_list` / sidebar annotation: every room with its live user
count and persisted message count. -/
def roomsInfo (s : ServerState) : List RoomInfo :=
  (database.getAllRooms s.db).map (fun r =>
    { name := r.name, userCount := (members s r.name).length,
      messageCount := database.getMessageCount s.db r.name })

/-- One inbound event.  `now` stands for the handler's
`new Date().toISOString()` reads, `dbNow` for SQLite's `CURRENT_TIMESTAMP`
at the insert; `username` on `connect` is the generated
`Anonymous-<random>` label (randomness as input). -/
inductive Event where
  | connect (cid : Nat) (username : String)
  | joinRoom (cid : Nat) (name : String) (now : Nat)
  | sendMessage (cid : Nat) (text : String) (dbNow now : Nat)
  | typing (cid : Nat) (isTyping : Bool)
  | createRoom (cid : Nat) (name : String)
  | disconnect (cid : Nat) (now : Nat)

/-- The acting connection of an event. -/
def Event.actor : Event → Nat
  | .connect cid _ => cid
  | .joinRoom cid _ _ => cid
  | .sendMessage cid _ _ _ => cid
  | .typing cid _ => cid
  | .createRoom cid _ => cid
  | .disconnect cid _ => cid

/-- Embeds the `io.on('connection', ...)` body: store the generated username, set
`currentRoom = null`, send the room catalog to the new socket. -/
def handleConnect (s : ServerState) (cid : Nat) (username : String) :
    ServerState × List Emit :=
  let s' : ServerState :=
    { s with sessions := fun x =>
        if x = cid then some { username := username, currentRoom := none }
        else s.sessions x }
  (s', [⟨.caller cid, .roomsList (roomsInfo s')⟩])

/-- The `join_room` handler.  Faithful to the source order: the previous
room (when different) is left — with `user_left` and `room_updated`
notices — BEFORE the target room's existence is checked; a nonexistent
target then yields only the error, leaving `currentRoom` still pointing at
the already-vacated previous room. -/
def handleJoinRoom (s : ServerState) (cid : Nat) (name : String) (now : Nat) :
    ServerState × List Emit :=
  match s.sessions cid with
  | none => (s, [])
  | some sess =>
    let leavePart : ServerState × List Emit :=
      match sess.currentRoom with
      | some p =>
        if p ≠ name then
          let s1 : ServerState := { s with roomUsers := removeFrom s.roomUsers p cid }
          (s1,
            [⟨.roomOthers p cid,
               .userLeft sess.username (sess.username ++ " left the room") now⟩,
             ⟨.all, .roomUpdated
               { name := p, userCount := (members s1 p).length,
                 messageCount := database.getMessageCount s.db p }⟩])
        else (s, [])
      | none => (s, [])
    let s1 := leavePart.1
    match database.getRoomByName s.db name with
    | none =>
      (s1, leavePart.2 ++ [⟨.caller cid, .errorMsg "Room does not exist"⟩])
    | some _ =>
      let s2 : ServerState :=
        { s1 with
          roomUsers := addTo s1.roomUsers name cid,
          sessions := fun x =>
            if x = cid then some { sess with currentRoom := some name }
            else s1.sessions x }
      (s2, leavePart.2 ++
        [⟨.caller cid, .messageHistory (database.getMessagesByRoom s.db name)⟩,
         ⟨.caller cid, .joinedRoom name sess.username⟩,
         ⟨.roomOthers name cid,
           .userJoined sess.username (sess.username ++ " joined the room") now⟩,
         ⟨.all, .roomUpdated
           { name := name, userCount := (members s2 name).length,
             messageCount := database.getMessageCount s.db name }⟩])

/-- The `send_message` handler: error to caller when not in a room or when
the store rejects; otherwise the saved message to the whole room
(sender included) and a `room_updated` to everyone. -/
def handleSendMessage (s : ServerState) (cid : Nat) (text : String) (dbNow now : Nat) :
    ServerState × List Emit :=
  match s.sessions cid with
  | none => (s, [])
  | some sess =>
    match sess.currentRoom with
    | none => (s, [⟨.caller cid, .errorMsg "You must join a room first"⟩])
    | some c =>
      match database.saveMessage s.db c sess.username text dbNow now with
      | none => (s, [⟨.caller cid, .errorMsg "Failed to save message"⟩])
      | some (saved, db') =>
        let s' : ServerState := { s with db := db' }
        (s',
          [⟨.room c, .newMessage
             { id := saved.id, text := text, username := sess.username,
               room := c, timestamp := saved.timestamp }⟩,
           ⟨.all, .roomUpdated
             { name := c, userCount := (members s' c).length,
               messageCount := database.getMessageCount db' c }⟩])

/-- The `typing` handler: forwarded to the room's other occupants only,
dropped when not in a room; no state change. -/
def handleTyping (s : ServerState) (cid : Nat) (isTyping : Bool) :
    ServerState × List Emit :=
  match s.sessions cid with
  | none => (s, [])
  | some sess =>
    match sess.currentRoom with
    | none => (s, [])
    | some c => (s, [⟨.roomOthers c cid, .userTyping sess.username isTyping⟩])

/-- The `create_room` handler: error when the name exists, else create,
reset the presence set, announce globally and acknowledge the creator. -/
def handleCreateRoom (s : ServerState) (cid : Nat) (name : String) :
    ServerState × List Emit :=
  match s.sessions cid with
  | none => (s, [])
  | some _ =>
    if database.roomExists s.db name then
      (s, [⟨.caller cid, .errorMsg "Room already exists"⟩])
    else
      let created := database.createRoom s.db name
      if created.1 then
        let s' : ServerState :=
          { s with db := created.2, roomUsers := setEmpty s.roomUsers name }
        (s',
          [⟨.all, .roomCreated { name := name, userCount := 0, messageCount := 0 }⟩,
           ⟨.caller cid, .roomCreatedSuccess name⟩])
      else (s, [⟨.caller cid, .errorMsg "Failed to create room"⟩])

/-- The `disconnect` handler: leave the current room (if any) with the
usual notices, then discard the session (the socket object is gone). -/
def handleDisconnect (s : ServerState) (cid : Nat) (now : Nat) :
    ServerState × List Emit :=
  match s.sessions cid with
  | none => (s, [])
  | some sess =>
    let leavePart : ServerState × List Emit :=
      match sess.currentRoom with
      | some c =>
        let s1 : ServerState := { s with roomUsers := removeFrom s.roomUsers c cid }
        (s1,
          [⟨.roomOthers c cid,
             .userLeft sess.username (sess.username ++ " left the room") now⟩,
           ⟨.all, .roomUpdated
             { name := c, userCount := (members s1 c).length,
               messageCount := database.getMessageCount s.db c }⟩])
      | none => (s, [])
    ({ leavePart.1 with sessions := fun x =>
        if x = cid then none else leavePart.1.sessions x }, leavePart.2)

/-- Dispatch one inbound event to its handler. -/
def handle (s : ServerState) : Event → ServerState × List Emit
  | .connect cid username => handleConnect s cid username
  | .joinRoom cid name now => handleJoinRoom s cid name now
  | .sendMessage cid text dbNow now => handleSendMessage s cid text dbNow now
  | .typing cid isTyping => handleTyping s cid isTyping
  | .createRoom cid name => handleCreateRoom s cid name
  | .disconnect cid now => handleDisconnect s cid now

/-- The default rooms created at startup. -/
def defaultRooms : List String := ["General", "Technology", "Random", "Support"]

/-- Server state at startup: default rooms in the database, empty presence
map, no sessions. -/
def initialState : ServerState :=
  { db := database.initDefaultRooms DB.empty defaultRooms,
    roomUsers := fun _ => none,
    sessions := fun _ => none }

/-- Transport-level sanity of an event: `connection` fires once per
socket with a fresh id; handlers of already-connected sockets fire only
while the socket is live (the `none` branches of the handlers are
unreachable but total). -/
def eventOk (s : ServerState) : Event → Prop
  | .connect cid _ => s.sessions cid = none
  | _ => True

/-- States reachable from startup by well-formed event sequences. -/
inductive Reachable : ServerState → Prop
  | init : Reachable initialState
  | step {s : ServerState} (e : Event) (hs : Reachable s) (he : eventOk s e) :
      Reachable (handle s e).1

/-- Database well-formedness: AUTOINCREMENT freshness (every stored id is
below the next id) and uniqueness of message ids.  Holds for the empty
database and is preserved by every operation. -/
def DBInv (db : DB) : Prop :=
  (∀ m ∈ db.messages, m.id < db.nextMsgId) ∧ (db.messages.map Msg.id).Nodup

/-- The presence/session mirror invariant actually maintained by the code:
a socket id occurs in a room's presence set only if that socket's session
points at that room.  (The spec also asserts the converse; see the C2
counterexample.) -/
def PresenceInv (s : ServerState) : Prop :=
  ∀ room cid, cid ∈ members s room →
    ∃ u, s.sessions cid = some u ∧ u.currentRoom = some room

/-- Trace state: one client (socket id 0) has connected. -/
def stConnected : ServerState := (handle initialState (.connect 0 "Anonymous-1")).1

/-- Trace state: client 0 has then joined the (existing) room General. -/
def stInGeneral : ServerState := (handle stConnected (.joinRoom 0 "General" 0)).1

/-- Client 0, while in General, asks to join the nonexistent room Ghost. -/
def joinGhost : ServerState × List Emit := handle stInGeneral (.joinRoom 0 "Ghost" 1)

/-- Concrete saved message for the retention witness: first message in
General on the startup database. -/
def c3m : SavedMsg :=
  { id := "1", room_id := 1, username := "u", text := "x", timestamp := 0 }

/-- Database after that first save. -/
def c3db : DB :=
  { rooms := [⟨1, "General"⟩, ⟨2, "Technology"⟩, ⟨3, "Random"⟩, ⟨4, "Support"⟩],
    nextRoomId := 5,
    messages := [⟨1, 1, "u", "x", 0⟩],
    nextMsgId := 2 }

/-- The database after `saveMessage initialState.db "General" "u" "x" 5 7`:
the stored row keeps the store clock 5. -/
def c9db : DB :=
  { rooms := [⟨1, "General"⟩, ⟨2, "Technology"⟩, ⟨3, "Random"⟩, ⟨4, "Support"⟩],
    nextRoomId := 5,
    messages := [⟨1, 1, "u", "x", 5⟩],
    nextMsgId := 2 }

/-- The returned object of that save: it reports the application clock 7. -/
def c9m : SavedMsg :=
  { id := "1", room_id := 1, username := "u", text := "x", timestamp := 7 }

/-- Outbound event names, for classifying emissions. -/
inductive PKind where
  | roomsListK | errorK | messageHistoryK | joinedRoomK | userJoinedK
  | userLeftK | userTypingK | newMessageK | roomUpdatedK | roomCreatedK
  | roomCreatedSuccessK
  deriving Repr, DecidableEq

/-- The event name of a payload. -/
def Payload.kind : Payload → PKind
  | .roomsList _ => .roomsListK
  | .errorMsg _ => .errorK
  | .messageHistory _ => .messageHistoryK
  | .joinedRoom _ _ => .joinedRoomK
  | .userJoined _ _ _ => .userJoinedK
  | .userLeft _ _ _ => .userLeftK
  | .userTyping _ _ => .userTypingK
  | .newMessage _ => .newMessageK
  | .roomUpdated _ => .roomUpdatedK
  | .roomCreated _ => .roomCreatedK
  | .roomCreatedSuccess _ => .roomCreatedSuccessK

/-- Audience discipline of one emission by the acting connection `a`:
membership notices go to a room's occupants minus the actor; catalog/count
updates go to everyone. -/
def EmitOk (a : Nat) (em : Emit) : Prop :=
  ((em.pay.kind = PKind.userJoinedK ∨ em.pay.kind = PKind.userLeftK) →
    ∃ r, em.aud = Aud.roomOthers r a) ∧
  ((em.pay.kind = PKind.roomUpdatedK ∨ em.pay.kind = PKind.roomCreatedK) →
    em.aud = Aud.all)


/-- 101 sequential appends to General: the i-th (1-based) append carries
store and application clocks both equal to i (strictly increasing, as for
sequential wall-clock writes). -/
def appendRun (db : DB) (n : Nat) : DB :=
  (List.range n).foldl
    (fun d i => ((database.saveMessage d "General" "u" "x" (i + 1) (i + 1)).map Prod.snd).getD d) db

/-- The database after those 101 appends: rows 2..101 survive, row 1 was
evicted by the retention rule. -/
def c4db : DB :=
  { rooms := [⟨1, "General"⟩, ⟨2, "Technology"⟩, ⟨3, "Random"⟩, ⟨4, "Support"⟩],
    nextRoomId := 5,
    messages := (List.range 100).map (fun i => ⟨i + 2, 1, "u", "x", i + 2⟩),
    nextMsgId := 102 }

/-! ## Lemmas about the message store -/

namespace database

theorem mem_insertByTs {m x : Msg} {l : List Msg} :
    x ∈ insertByTs m l ↔ x = m ∨ x ∈ l := by
  induction l with
  | nil => simp [insertByTs]
  | cons y ys ih =>
    simp only [insertByTs]
    split
    · simp [List.mem_cons]
    · simp only [List.mem_cons, ih]
      tauto

theorem mem_sortByTs {x : Msg} {l : List Msg} : x ∈ sortByTs l ↔ x ∈ l := by
  induction l with
  | nil => simp [sortByTs]
  | cons y ys ih =>
    simp only [sortByTs, List.foldr_cons] at ih ⊢
    rw [mem_insertByTs, ih, List.mem_cons]

/-- Rooms are untouched by `deleteOldMessages`. -/
theorem rooms_deleteOldMessages (db : DB) (rid : Nat) :
    (deleteOldMessages db rid).rooms = db.rooms := rfl

/-- A list of messages with pairwise-distinct ids, all of whose ids lie in
`keep`, is no longer than `keep`. -/
theorem length_le_of_ids_in {l : List Msg} {keep : List Nat}
    (hnd : (l.map Msg.id).Nodup) (hsub : ∀ x ∈ l, x.id ∈ keep) :
    l.length ≤ keep.length := by
  have hs : l.map Msg.id ⊆ keep := by
    intro a ha
    rcases List.mem_map.1 ha with ⟨x, hx, rfl⟩
    exact hsub x hx
  have := (hnd.subperm hs).length_le
  simpa using this

end database

namespace database

/-- Unpack a successful `saveMessage`: the returned object and the new
database, given the room row the name resolves to. -/
theorem saveMessage_eq {db : DB} {roomName u t : String} {dbNow appNow : Nat}
    {m : SavedMsg} {db' : DB} {room : Room}
    (hr : getRoomByName db roomName = some room)
    (h : saveMessage db roomName u t dbNow appNow = some (m, db')) :
    m = { id := toString db.nextMsgId, room_id := room.id, username := u,
          text := t, timestamp := appNow } ∧
    db' = deleteOldMessages
      { db with
        messages := db.messages ++
          [{ id := db.nextMsgId, room_id := room.id, username := u,
             text := t, timestamp := dbNow }],
        nextMsgId := db.nextMsgId + 1 } room.id := by
  simp only [saveMessage, hr, Option.some.injEq, Prod.mk.injEq] at h
  exact ⟨h.1.symm, h.2.symm⟩

/-- A `saveMessage` call fails exactly on an absent room. -/
theorem saveMessage_none {db : DB} {roomName u t : String} {dbNow appNow : Nat}
    (hr : getRoomByName db roomName = none) :
    saveMessage db roomName u t dbNow appNow = none := by
  simp [saveMessage, hr]

/-- Appending a row with the fresh AUTOINCREMENT id keeps ids distinct. -/
theorem nodup_ids_append {db : DB} (hinv : DBInv db) {new : Msg}
    (hid : new.id = db.nextMsgId) :
    ((db.messages ++ [new]).map Msg.id).Nodup := by
  rw [List.map_append, List.nodup_append]
  refine ⟨hinv.2, List.nodup_singleton _, ?_⟩
  intro a ha hb
  simp only [List.map_cons, List.map_nil, List.mem_singleton] at hb
  subst hb
  rcases List.mem_map.1 ha with ⟨x, hx, hxa⟩
  have := hinv.1 x hx
  omega

/-- The rows the retention filter keeps for the target room all carry ids
from `keep`, so with distinct ids there are at most `keep.length` of them. -/
theorem filter_keep_length_le (msgs : List Msg) (rid : Nat) (keep : List Nat)
    (hnd : (msgs.map Msg.id).Nodup) :
    ((msgs.filter (fun m => m.room_id != rid || keep.contains m.id)).filter
        (fun x => x.room_id == rid)).length ≤ keep.length := by
  refine length_le_of_ids_in ?_ ?_
  · exact hnd.sublist (((List.filter_sublist _).trans (List.filter_sublist _)).map Msg.id)
  · intro x hx
    rcases List.mem_filter.1 hx with ⟨hx1, hq⟩
    rcases List.mem_filter.1 hx1 with ⟨_, hp⟩
    have hrid : x.room_id = rid := by simpa using hq
    simp only [hrid, bne_self_eq_false, Bool.false_or] at hp
    simpa using hp

/-- After retention cleanup, the affected room holds at most 100 rows. -/
theorem count_le_after_deleteOld (db : DB) (rid : Nat)
    (hnd : (db.messages.map Msg.id).Nodup) :
    ((deleteOldMessages db rid).messages.filter
        (fun x => x.room_id == rid)).length ≤ 100 := by
  simp only [deleteOldMessages]
  refine le_trans (filter_keep_length_le db.messages rid _ hnd) ?_
  simp only [List.length_map]
  exact List.length_take_le _ _

end database

namespace database

/-- The lookup `getRoomByName` only reads the `rooms` table. -/
theorem getRoomByName_congr (db1 db2 : DB) (h : db1.rooms = db2.rooms) (name : String) :
    getRoomByName db1 name = getRoomByName db2 name := by
  simp [getRoomByName, h]

/-- A successful `saveMessage` preserves the id invariant. -/
theorem dbInv_saveMessage {db : DB} {roomName u t : String} {dbNow appNow : Nat}
    {m : SavedMsg} {db' : DB} (hinv : DBInv db)
    (h : saveMessage db roomName u t dbNow appNow = some (m, db')) : DBInv db' := by
  cases hr : getRoomByName db roomName with
  | none => rw [saveMessage_none hr] at h; exact absurd h (by simp)
  | some room =>
    obtain ⟨-, hdb⟩ := saveMessage_eq hr h
    subst hdb
    have hnd : ((db.messages ++
        [({ id := db.nextMsgId, room_id := room.id, username := u,
            text := t, timestamp := dbNow } : Msg)]).map Msg.id).Nodup :=
      nodup_ids_append hinv rfl
    constructor
    · intro x hx
      simp only [deleteOldMessages] at hx
      have hx1 := (List.filter_sublist _).mem hx
      rcases List.mem_append.1 hx1 with hx2 | hx2
      · exact Nat.lt_succ_of_lt (hinv.1 x hx2)
      · simp only [List.mem_singleton] at hx2
        subst hx2
        exact Nat.lt_succ_self _
    · exact hnd.sublist ((List.filter_sublist _).map Msg.id)

end database

/-- C3: for every room and every sequence of `saveMessage` appends,
immediately after each successful append the number of persisted messages
for that room is at most 100; the id invariant `DBInv` (which holds of the
initial database and is preserved here) carries the bound along any
sequence of appends. -/
theorem saveMessage_count_le_100 (db : DB) (roomName u t : String)
    (dbNow appNow : Nat) (m : SavedMsg) (db' : DB) (hinv : DBInv db)
    (h : database.saveMessage db roomName u t dbNow appNow = some (m, db')) :
    database.getMessageCount db' roomName ≤ 100 ∧ DBInv db' := by
  refine ⟨?_, database.dbInv_saveMessage hinv h⟩
  cases hr : database.getRoomByName db roomName with
  | none => rw [database.saveMessage_none hr] at h; exact absurd h (by simp)
  | some room =>
    obtain ⟨-, hdb⟩ := database.saveMessage_eq hr h
    have hq : database.getRoomByName db' roomName = some room := by
      rw [database.getRoomByName_congr db' db (by rw [hdb]; rfl) roomName, hr]
    rw [database.getMessageCount, hq]
    rw [hdb]
    exact database.count_le_after_deleteOld _ room.id (database.nodup_ids_append hinv rfl)

/-- Witness for C3 at a concrete input. -/
theorem saveMessage_count_le_100_witness :
    database.getMessageCount c3db "General" ≤ 100 ∧ DBInv c3db :=
  saveMessage_count_le_100 initialState.db "General" "u" "x" 0 0 c3m c3db
    ⟨by decide, by decide⟩ (by decide)

/-- C6: `createRoom` is idempotent create-if-absent: for a name not yet in
the catalog, the first call returns `true`, the second returns `false`
(not an error), and the catalog gains exactly the one entry. -/
theorem createRoom_idempotent (db : DB) (name : String)
    (h : database.roomExists db name = false) :
    (database.createRoom db name).1 = true ∧
    (database.createRoom (database.createRoom db name).2 name).1 = false ∧
    (database.createRoom db name).2.rooms.map Room.name =
      db.rooms.map Room.name ++ [name] := by
  have hany : db.rooms.any (fun r => r.name == name) = false := by
    rw [database.roomExists, database.getRoomByName] at h
    cases hf : db.rooms.find? (fun r => r.name == name) with
    | none =>
      rw [List.any_eq_false]
      intro x hx
      simpa using List.find?_eq_none.1 hf x hx
    | some r => rw [hf] at h; simp at h
  refine ⟨by simp [database.createRoom, hany], ?_, ?_⟩
  · simp [database.createRoom, hany, List.any_append]
  · simp [database.createRoom, hany]

/-- Witness for C6 at a concrete input. -/
theorem createRoom_idempotent_witness :
    (database.createRoom DB.empty "Launch").1 = true ∧
    (database.createRoom (database.createRoom DB.empty "Launch").2 "Launch").1 = false ∧
    (database.createRoom DB.empty "Launch").2.rooms.map Room.name =
      DB.empty.rooms.map Room.name ++ ["Launch"] :=
  createRoom_idempotent DB.empty "Launch" (by decide)

/-- C8: the history read returns the empty list both for a room name
absent from the catalog and for an existing room with no messages — no
error and no distinguishable not-found result. -/
theorem getMessagesByRoom_absent_eq_empty (db : DB) (name : String) :
    (database.getRoomByName db name = none →
      database.getMessagesByRoom db name = []) ∧
    (∀ room, database.getRoomByName db name = some room →
      db.messages.filter (fun m => m.room_id == room.id) = [] →
      database.getMessagesByRoom db name = []) := by
  constructor
  · intro h
    simp [database.getMessagesByRoom, database.getMessagesRows, h]
  · intro room hr hf
    simp [database.getMessagesByRoom, database.getMessagesRows, hr, hf,
      database.sortByTs]

/-- Witness for C8: a nonexistent room and an existing empty room both
yield `[]` on the startup database. -/
theorem getMessagesByRoom_absent_eq_empty_witness :
    database.getMessagesByRoom initialState.db "Ghost" = [] ∧
    database.getMessagesByRoom initialState.db "General" = [] :=
  ⟨(getMessagesByRoom_absent_eq_empty initialState.db "Ghost").1 (by decide),
   (getMessagesByRoom_absent_eq_empty initialState.db "General").2
     ⟨1, "General"⟩ (by decide) (by decide)⟩

namespace database

/-- Every history row comes from the `messages` table. -/
theorem mem_of_mem_getMessagesRows {db : DB} {roomName : String} {row : Msg}
    (h : row ∈ getMessagesRows db roomName) : row ∈ db.messages := by
  rw [getMessagesRows] at h
  cases hr : getRoomByName db roomName with
  | none => rw [hr] at h; simp at h
  | some room =>
    rw [hr] at h
    have h1 := List.mem_of_mem_take h
    exact (List.mem_filter.1 (mem_sortByTs.1 h1)).1

end database

/-- C9: on a successful append the object `saveMessage` returns carries
the application-clock timestamp (`new Date().toISOString()`), while the
row the history query later returns for the same message id carries the
store-assigned `CURRENT_TIMESTAMP` value; the two are independent inputs,
so the history timestamp is not required to equal the returned one. -/
theorem saveMessage_timestamp_split (db : DB) (roomName u t : String)
    (dbNow appNow : Nat) (m : SavedMsg) (db' : DB) (hinv : DBInv db)
    (h : database.saveMessage db roomName u t dbNow appNow = some (m, db')) :
    m.timestamp = appNow ∧
    ∀ row ∈ database.getMessagesRows db' roomName,
      row.id = db.nextMsgId → row.timestamp = dbNow := by
  cases hr : database.getRoomByName db roomName with
  | none => rw [database.saveMessage_none hr] at h; exact absurd h (by simp)
  | some room =>
    obtain ⟨hm, hdb⟩ := database.saveMessage_eq hr h
    subst hm
    refine ⟨rfl, ?_⟩
    intro row hrow hid
    have h1 : row ∈ db'.messages := database.mem_of_mem_getMessagesRows hrow
    rw [hdb] at h1
    simp only [database.deleteOldMessages] at h1
    have h2 := (List.filter_sublist _).mem h1
    rcases List.mem_append.1 h2 with h3 | h3
    · exact absurd hid (Nat.ne_of_lt (hinv.1 row h3))
    · simp only [List.mem_singleton] at h3
      rw [h3]

/-- Witness for C9 at a concrete input where the two clocks differ
(store clock 5, application clock 7). -/
theorem saveMessage_timestamp_split_witness :
    c9m.timestamp = 7 ∧
    ∀ row ∈ database.getMessagesRows c9db "General",
      row.id = initialState.db.nextMsgId → row.timestamp = 5 :=
  saveMessage_timestamp_split initialState.db "General" "u" "x" 5 7 c9m c9db
    ⟨by decide, by decide⟩ (by decide)

/-- C10: at the public interface message ids are decimal strings: the
object returned by `saveMessage` carries the integer rowid converted by
`toString`, every history element likewise carries its row's id converted
by `toString`, and for the same underlying rowid the two strings agree. -/
theorem message_id_strings (db : DB) (roomName u t : String)
    (dbNow appNow : Nat) (m : SavedMsg) (db' : DB)
    (h : database.saveMessage db roomName u t dbNow appNow = some (m, db')) :
    m.id = toString db.nextMsgId ∧
    ∀ hm ∈ database.getMessagesByRoom db' roomName,
      ∃ row, row ∈ database.getMessagesRows db' roomName ∧
        hm.id = toString row.id ∧ (row.id = db.nextMsgId → hm.id = m.id) := by
  cases hr : database.getRoomByName db roomName with
  | none => rw [database.saveMessage_none hr] at h; exact absurd h (by simp)
  | some room =>
    obtain ⟨hm', -⟩ := database.saveMessage_eq hr h
    subst hm'
    refine ⟨rfl, ?_⟩
    intro x hx
    rcases List.mem_map.1 hx with ⟨row, hrow, rfl⟩
    exact ⟨row, hrow, rfl, fun hid => by rw [hid]⟩

/-- Witness for C10 at a concrete input: the save returns id `"1"` and the
single history element carries the same string id. -/
theorem message_id_strings_witness :
    c9m.id = toString initialState.db.nextMsgId ∧
    ∀ hm ∈ database.getMessagesByRoom c9db "General",
      ∃ row, row ∈ database.getMessagesRows c9db "General" ∧
        hm.id = toString row.id ∧ (row.id = initialState.db.nextMsgId → hm.id = c9m.id) :=
  message_id_strings initialState.db "General" "u" "x" 5 7 c9m c9db (by decide)

set_option maxRecDepth 400000 in
/-- Evaluation of the 101-append run. -/
theorem appendRun_eq : appendRun initialState.db 101 = c4db := by decide

/-- C4: retention eviction is the deterministic most-recent-100 rule by
`(timestamp, id)` descending (`deleteOldMessages`); after 101 sequential
appends to General the persisted count is 100, the surviving ids are
exactly 2..101 in ascending history order, and the first history element
is the 2nd message appended (the 1st was evicted). -/
theorem retention_eviction_scenario :
    database.getMessageCount (appendRun initialState.db 101) "General" = 100 ∧
    (database.getMessagesByRoom (appendRun initialState.db 101) "General").map
      (fun h => h.id) = (List.range 100).map (fun i => toString (i + 2)) ∧
    (database.getMessagesByRoom (appendRun initialState.db 101) "General").head?.map
      (fun h => h.id) = some "2" := by
  rw [appendRun_eq]
  refine ⟨by decide, by decide, by decide⟩

/-- C7: a `send_message` from a connection whose session has no current
room produces exactly one error event, addressed to the caller only, and
returns the state unchanged — nothing persisted, no presence or session
change, no broadcast. -/
theorem sendMessage_no_room_error (s : ServerState) (cid : Nat) (text : String)
    (dbNow now : Nat) (sess : Session)
    (hs : s.sessions cid = some sess) (hr : sess.currentRoom = none) :
    handle s (.sendMessage cid text dbNow now) =
      (s, [⟨.caller cid, .errorMsg "You must join a room first"⟩]) := by
  simp [handle, handleSendMessage, hs, hr]

/-- Witness for C7: socket 0 right after connecting (no room yet). -/
theorem sendMessage_no_room_error_witness :
    handle stConnected (.sendMessage 0 "hello" 0 0) =
      (stConnected, [⟨.caller 0, .errorMsg "You must join a room first"⟩]) :=
  sendMessage_no_room_error stConnected 0 "hello" 0 0
    { username := "Anonymous-1", currentRoom := none } (by decide) rfl

/-- C1 counterexample: with socket 0 in General, `join_room "Ghost"`
(nonexistent) emits three events, not one, and removes 0 from General's
presence set — the handler leaves the previous room before checking that
the target exists. -/
theorem joinRoom_nonexistent_not_inert :
    database.getRoomByName stInGeneral.db "Ghost" = none ∧
    members stInGeneral "General" = [0] ∧
    joinGhost.2.length = 3 ∧
    members joinGhost.1 "General" = [] :=
  ⟨by decide, by decide, by decide, by decide⟩

/-- C1 amended: joining a nonexistent room emits exactly one error to the
caller and changes nothing ONLY when the caller is not already in a
different room; when the caller is in a different room `p`, the handler
first removes it from `p`'s presence set and emits the `user_left` and
`room_updated` notices, then the error — and `current_room` is left still
pointing at `p`. -/
theorem joinRoom_nonexistent_behavior (s : ServerState) (cid : Nat)
    (name : String) (now : Nat) (sess : Session)
    (hs : s.sessions cid = some sess)
    (hr : database.getRoomByName s.db name = none) :
    ((sess.currentRoom = none ∨ sess.currentRoom = some name) →
      handle s (.joinRoom cid name now) =
        (s, [⟨.caller cid, .errorMsg "Room does not exist"⟩])) ∧
    (∀ p, sess.currentRoom = some p → p ≠ name →
      handle s (.joinRoom cid name now) =
        ({ s with roomUsers := removeFrom s.roomUsers p cid },
         [⟨.roomOthers p cid,
            .userLeft sess.username (sess.username ++ " left the room") now⟩,
          ⟨.all, .roomUpdated
            { name := p,
              userCount :=
                (members { s with roomUsers := removeFrom s.roomUsers p cid } p).length,
              messageCount := database.getMessageCount s.db p }⟩,
          ⟨.caller cid, .errorMsg "Room does not exist"⟩])) := by
  constructor
  · rintro (hcur | hcur) <;> simp [handle, handleJoinRoom, hs, hcur, hr]
  · intro p hcur hne
    simp [handle, handleJoinRoom, hs, hcur, hne, hr]

/-- Witness for C1 (amended), first branch: a caller in no room gets
exactly the one error and an unchanged state. -/
theorem joinRoom_nonexistent_behavior_witness :
    handle stConnected (.joinRoom 0 "Ghost" 1) =
      (stConnected, [⟨.caller 0, .errorMsg "Room does not exist"⟩]) :=
  (joinRoom_nonexistent_behavior stConnected 0 "Ghost" 1
      { username := "Anonymous-1", currentRoom := none } (by decide) (by decide)).1
    (Or.inl rfl)

/-- Membership after `roomUsers.get(p)?.delete(cid)`. -/
theorem mem_members_removeFrom {ru : String → Option (List Nat)} {p room : String}
    {cid x : Nat} (h : x ∈ ((removeFrom ru p cid) room).getD []) :
    x ∈ (ru room).getD [] ∧ (room = p → x ≠ cid) := by
  simp only [removeFrom] at h
  by_cases hr : room = p
  · subst hr
    rw [if_pos rfl] at h
    cases hl : ru room with
    | none => rw [hl] at h; simp at h
    | some l =>
      rw [hl] at h
      simp only [Option.map_some', Option.getD_some] at h
      have := List.mem_filter.1 h
      refine ⟨by simpa using this.1, fun _ => by simpa using this.2⟩
  · rw [if_neg hr] at h
    exact ⟨h, fun hc => absurd hc hr⟩

/-- Membership after the `add` in the join handler. -/
theorem mem_members_addTo {ru : String → Option (List Nat)} {nm room : String}
    {cid x : Nat} (h : x ∈ ((addTo ru nm cid) room).getD []) :
    (room = nm ∧ x = cid) ∨ x ∈ (ru room).getD [] := by
  simp only [addTo] at h
  by_cases hr : room = nm
  · subst hr
    rw [if_pos rfl] at h
    simp only [Option.getD_some] at h
    split at h
    · exact Or.inr h
    · rcases List.mem_append.1 h with h1 | h1
      · exact Or.inr h1
      · simp only [List.mem_singleton] at h1
        exact Or.inl ⟨rfl, h1⟩
  · rw [if_neg hr] at h
    exact Or.inr h

/-- Membership after `roomUsers.set(nm, new Set())`. -/
theorem mem_members_setEmpty {ru : String → Option (List Nat)} {nm room : String}
    {x : Nat} (h : x ∈ ((setEmpty ru nm) room).getD []) :
    x ∈ (ru room).getD [] ∧ room ≠ nm := by
  simp only [setEmpty] at h
  by_cases hr : room = nm
  · rw [if_pos hr] at h; simp at h
  · rw [if_neg hr] at h; exact ⟨h, hr⟩

namespace database

/-- A failing existence check means no catalog row matches the name. -/
theorem any_eq_false_of_not_roomExists {db : DB} {name : String}
    (h : roomExists db name = false) :
    db.rooms.any (fun r => r.name == name) = false := by
  rw [roomExists, getRoomByName] at h
  cases hf : db.rooms.find? (fun r => r.name == name) with
  | none =>
    rw [List.any_eq_false]
    intro x hx
    simpa using List.find?_eq_none.1 hf x hx
  | some r => rw [hf] at h; simp at h

end database

/-- One step of any handler preserves the presence-to-session direction of
the mirror invariant. -/
theorem presenceInv_handle (s : ServerState) (e : Event) (hInv : PresenceInv s)
    (he : eventOk s e) : PresenceInv (handle s e).1 := by
  cases e with
  | connect cid username =>
    intro room x hx
    obtain ⟨u, hu, hc⟩ := hInv room x hx
    by_cases hxc : x = cid
    · subst hxc
      rw [he] at hu
      exact absurd hu (by simp)
    · exact ⟨u, by simp only [handle, handleConnect, if_neg hxc]; exact hu, hc⟩
  | joinRoom cid name now =>
    cases hsess : s.sessions cid with
    | none =>
      have hst : (handle s (.joinRoom cid name now)).1 = s := by
        simp [handle, handleJoinRoom, hsess]
      rw [hst]; exact hInv
    | some sess =>
      cases hcur : sess.currentRoom with
      | none =>
        cases hroom : database.getRoomByName s.db name with
        | none =>
          have hst : (handle s (.joinRoom cid name now)).1 = s := by
            simp [handle, handleJoinRoom, hsess, hcur, hroom]
          rw [hst]; exact hInv
        | some r =>
          have hst : (handle s (.joinRoom cid name now)).1 =
              { s with
                roomUsers := addTo s.roomUsers name cid,
                sessions := fun x =>
                  if x = cid then some { sess with currentRoom := some name }
                  else s.sessions x } := by
            simp [handle, handleJoinRoom, hsess, hcur, hroom]
          rw [hst]
          intro room x hx
          rcases mem_members_addTo hx with ⟨hroomEq, hxEq⟩ | hx'
          · exact ⟨{ sess with currentRoom := some name },
              by simp [hxEq], by simp [hroomEq]⟩
          · obtain ⟨u, hu, hc⟩ := hInv room x hx'
            by_cases hxc : x = cid
            · rw [hxc, hsess] at hu
              injection hu with hu'
              rw [← hu', hcur] at hc
              exact absurd hc (by simp)
            · exact ⟨u, by simp only [if_neg hxc]; exact hu, hc⟩
      | some p =>
        by_cases hpn : p = name
        · cases hroom : database.getRoomByName s.db name with
          | none =>
            have hst : (handle s (.joinRoom cid name now)).1 = s := by
              simp [handle, handleJoinRoom, hsess, hcur, hpn, hroom]
            rw [hst]; exact hInv
          | some r =>
            have hst : (handle s (.joinRoom cid name now)).1 =
                { s with
                  roomUsers := addTo s.roomUsers name cid,
                  sessions := fun x =>
                    if x = cid then some { sess with currentRoom := some name }
                    else s.sessions x } := by
              simp [handle, handleJoinRoom, hsess, hcur, hpn, hroom]
            rw [hst]
            intro room x hx
            rcases mem_members_addTo hx with ⟨hroomEq, hxEq⟩ | hx'
            · exact ⟨{ sess with currentRoom := some name },
                by simp [hxEq], by simp [hroomEq]⟩
            · obtain ⟨u, hu, hc⟩ := hInv room x hx'
              by_cases hxc : x = cid
              · rw [hxc, hsess] at hu
                injection hu with hu'
                rw [← hu', hcur] at hc
                injection hc with hc'
                refine ⟨{ sess with currentRoom := some name }, by simp [hxc], ?_⟩
                rw [← hc', hpn]
              · exact ⟨u, by simp only [if_neg hxc]; exact hu, hc⟩
        · cases hroom : database.getRoomByName s.db name with
          | none =>
            have hst : (handle s (.joinRoom cid name now)).1 =
                { s with roomUsers := removeFrom s.roomUsers p cid } := by
              simp [handle, handleJoinRoom, hsess, hcur, hpn, hroom]
            rw [hst]
            intro room x hx
            obtain ⟨hx', -⟩ := mem_members_removeFrom hx
            exact hInv room x hx'
          | some r =>
            have hst : (handle s (.joinRoom cid name now)).1 =
                { s with
                  roomUsers := addTo (removeFrom s.roomUsers p cid) name cid,
                  sessions := fun x =>
                    if x = cid then some { sess with currentRoom := some name }
                    else s.sessions x } := by
              simp [handle, handleJoinRoom, hsess, hcur, hpn, hroom]
            rw [hst]
            intro room x hx
            rcases mem_members_addTo hx with ⟨hroomEq, hxEq⟩ | hx'
            · exact ⟨{ sess with currentRoom := some name },
                by simp [hxEq], by simp [hroomEq]⟩
            · obtain ⟨hx'', himp⟩ := mem_members_removeFrom hx'
              obtain ⟨u, hu, hc⟩ := hInv room x hx''
              by_cases hxc : x = cid
              · rw [hxc, hsess] at hu
                injection hu with hu'
                rw [← hu', hcur] at hc
                injection hc with hc'
                exact absurd hxc (himp hc'.symm)
              · exact ⟨u, by simp only [if_neg hxc]; exact hu, hc⟩
  | sendMessage cid text dbNow now =>
    cases hsess : s.sessions cid with
    | none =>
      have hst : (handle s (.sendMessage cid text dbNow now)).1 = s := by
        simp [handle, handleSendMessage, hsess]
      rw [hst]; exact hInv
    | some sess =>
      cases hcur : sess.currentRoom with
      | none =>
        have hst : (handle s (.sendMessage cid text dbNow now)).1 = s := by
          simp [handle, handleSendMessage, hsess, hcur]
        rw [hst]; exact hInv
      | some c =>
        cases hsv : database.saveMessage s.db c sess.username text dbNow now with
        | none =>
          have hst : (handle s (.sendMessage cid text dbNow now)).1 = s := by
            simp [handle, handleSendMessage, hsess, hcur, hsv]
          rw [hst]; exact hInv
        | some pr =>
          obtain ⟨saved, db'⟩ := pr
          have hst : (handle s (.sendMessage cid text dbNow now)).1 =
              { s with db := db' } := by
            simp [handle, handleSendMessage, hsess, hcur, hsv]
          rw [hst]
          intro room x hx
          exact hInv room x hx
  | typing cid isTyping =>
    cases hsess : s.sessions cid with
    | none =>
      have hst : (handle s (.typing cid isTyping)).1 = s := by
        simp [handle, handleTyping, hsess]
      rw [hst]; exact hInv
    | some sess =>
      cases hcur : sess.currentRoom with
      | none =>
        have hst : (handle s (.typing cid isTyping)).1 = s := by
          simp [handle, handleTyping, hsess, hcur]
        rw [hst]; exact hInv
      | some c =>
        have hst : (handle s (.typing cid isTyping)).1 = s := by
          simp [handle, handleTyping, hsess, hcur]
        rw [hst]; exact hInv
  | createRoom cid name =>
    cases hsess : s.sessions cid with
    | none =>
      have hst : (handle s (.createRoom cid name)).1 = s := by
        simp [handle, handleCreateRoom, hsess]
      rw [hst]; exact hInv
    | some sess =>
      by_cases hex : database.roomExists s.db name = true
      · have hst : (handle s (.createRoom cid name)).1 = s := by
          simp [handle, handleCreateRoom, hsess, hex]
        rw [hst]; exact hInv
      · have hex' : database.roomExists s.db name = false := by
          simpa using hex
        have hany := database.any_eq_false_of_not_roomExists hex'
        have hst : (handle s (.createRoom cid name)).1 =
            { s with
              db := (database.createRoom s.db name).2,
              roomUsers := setEmpty s.roomUsers name } := by
          simp [handle, handleCreateRoom, hsess, hex', database.createRoom, hany]
        rw [hst]
        intro room x hx
        obtain ⟨hx', -⟩ := mem_members_setEmpty hx
        exact hInv room x hx'
  | disconnect cid now =>
    cases hsess : s.sessions cid with
    | none =>
      have hst : (handle s (.disconnect cid now)).1 = s := by
        simp [handle, handleDisconnect, hsess]
      rw [hst]; exact hInv
    | some sess =>
      cases hcur : sess.currentRoom with
      | none =>
        have hst : (handle s (.disconnect cid now)).1 =
            { s with sessions := fun x => if x = cid then none else s.sessions x } := by
          simp [handle, handleDisconnect, hsess, hcur]
        rw [hst]
        intro room x hx
        obtain ⟨u, hu, hc⟩ := hInv room x hx
        by_cases hxc : x = cid
        · subst hxc
          rw [hsess] at hu
          injection hu with hu'
          rw [← hu', hcur] at hc
          exact absurd hc (by simp)
        · exact ⟨u, by simp only [if_neg hxc]; exact hu, hc⟩
      | some c =>
        have hst : (handle s (.disconnect cid now)).1 =
            { s with
              roomUsers := removeFrom s.roomUsers c cid,
              sessions := fun x => if x = cid then none else s.sessions x } := by
          simp [handle, handleDisconnect, hsess, hcur]
        rw [hst]
        intro room x hx
        obtain ⟨hx', himp⟩ := mem_members_removeFrom hx
        obtain ⟨u, hu, hc⟩ := hInv room x hx'
        by_cases hxc : x = cid
        · subst hxc
          rw [hsess] at hu
          injection hu with hu'
          rw [← hu', hcur] at hc
          injection hc with hc'
          exact absurd rfl (himp hc'.symm)
        · exact ⟨u, by simp only [if_neg hxc]; exact hu, hc⟩

/-- The presence-to-session half of the invariant holds in every reachable
state. -/
theorem presenceInv_reachable {s : ServerState} (h : Reachable s) : PresenceInv s := by
  induction h with
  | init =>
    intro room x hx
    simp [members, initialState] at hx
  | step e hs he ih => exact presenceInv_handle _ e ih he

/-- The startup state is reachable. -/
theorem reachable_stConnected : Reachable stConnected :=
  Reachable.step (.connect 0 "Anonymous-1") Reachable.init rfl

/-- Socket 0 joined General: reachable. -/
theorem reachable_stInGeneral : Reachable stInGeneral :=
  Reachable.step (.joinRoom 0 "General" 0) reachable_stConnected trivial

/-- The state after the failed join to Ghost: reachable. -/
theorem reachable_joinGhost : Reachable joinGhost.1 :=
  Reachable.step (.joinRoom 0 "Ghost" 1) reachable_stInGeneral trivial

/-- C2 counterexample: a reachable state in which a session's
`current_room` names General while its socket id is NOT in General's
presence set — obtained by joining General and then requesting the
nonexistent room Ghost (the handler removes the socket from General before
discovering that Ghost does not exist, and leaves `current_room` at
General).  This refutes the forward direction of the claimed invariant. -/
theorem presence_mirror_invariant_cex :
    Reachable joinGhost.1 ∧
    (joinGhost.1.sessions 0).map (fun u => u.currentRoom) = some (some "General") ∧
    0 ∉ members joinGhost.1 "General" :=
  ⟨reachable_joinGhost, by decide, by decide⟩

/-- C2 amended: in every reachable state the presence-to-session direction
holds: a connection id occurs in a room's presence set only if that
connection's session exists and its `current_room` equals that room.  (The
session-to-presence direction fails; see the counterexample.) -/
theorem presence_mirror_invariant (s : ServerState) (hs : Reachable s)
    (room : String) (cid : Nat) (h : cid ∈ members s room) :
    ∃ u, s.sessions cid = some u ∧ u.currentRoom = some room :=
  presenceInv_reachable hs room cid h

/-- Witness for C2 (amended): socket 0 in General's presence set has
`current_room = "General"`. -/
theorem presence_mirror_invariant_witness :
    ∃ u, stInGeneral.sessions 0 = some u ∧ u.currentRoom = some "General" :=
  presence_mirror_invariant stInGeneral reachable_stInGeneral "General" 0 (by decide)

/-- Every emission of every handler obeys the audience discipline. -/
theorem emitOk_handle (s : ServerState) (e : Event) :
    ∀ em ∈ (handle s e).2, EmitOk e.actor em := by
  intro em hm
  cases e with
  | connect cid username =>
    simp only [handle, handleConnect, List.mem_singleton] at hm
    subst hm
    exact ⟨fun hk => by simp [Payload.kind] at hk,
           fun hk => by simp [Payload.kind] at hk⟩
  | joinRoom cid name now =>
    cases hsess : s.sessions cid with
    | none => simp [handle, handleJoinRoom, hsess] at hm
    | some sess =>
      cases hcur : sess.currentRoom with
      | none =>
        cases hroom : database.getRoomByName s.db name with
        | none =>
          simp only [handle, handleJoinRoom, hsess, hcur, hroom, List.nil_append,
            List.mem_singleton] at hm
          subst hm
          exact ⟨fun hk => by simp [Payload.kind] at hk,
                 fun hk => by simp [Payload.kind] at hk⟩
        | some r =>
          simp only [handle, handleJoinRoom, hsess, hcur, hroom, List.nil_append,
            List.mem_cons, List.not_mem_nil, or_false] at hm
          rcases hm with rfl | rfl | rfl | rfl
          all_goals first
            | exact ⟨fun _ => ⟨_, rfl⟩, fun hk => by simp [Payload.kind] at hk⟩
            | exact ⟨fun hk => by simp [Payload.kind] at hk, fun _ => rfl⟩
            | exact ⟨fun hk => by simp [Payload.kind] at hk,
                     fun hk => by simp [Payload.kind] at hk⟩
      | some p =>
        by_cases hpn : p = name
        · cases hroom : database.getRoomByName s.db name with
          | none =>
            simp only [handle, handleJoinRoom, hsess, hcur, hpn, hroom, ne_eq,
              not_true_eq_false, if_false, List.nil_append, List.mem_singleton] at hm
            subst hm
            exact ⟨fun hk => by simp [Payload.kind] at hk,
                   fun hk => by simp [Payload.kind] at hk⟩
          | some r =>
            simp only [handle, handleJoinRoom, hsess, hcur, hpn, hroom, ne_eq,
              not_true_eq_false, if_false, List.nil_append, List.mem_cons,
              List.not_mem_nil, or_false] at hm
            rcases hm with rfl | rfl | rfl | rfl
            all_goals first
              | exact ⟨fun _ => ⟨_, rfl⟩, fun hk => by simp [Payload.kind] at hk⟩
              | exact ⟨fun hk => by simp [Payload.kind] at hk, fun _ => rfl⟩
              | exact ⟨fun hk => by simp [Payload.kind] at hk,
                       fun hk => by simp [Payload.kind] at hk⟩
        · cases hroom : database.getRoomByName s.db name with
          | none =>
            simp only [handle, handleJoinRoom, hsess, hcur, hpn, ne_eq,
              not_false_eq_true, if_true, hroom, List.cons_append, List.nil_append,
              List.mem_cons, List.not_mem_nil, or_false] at hm
            rcases hm with rfl | rfl | rfl
            all_goals first
              | exact ⟨fun _ => ⟨_, rfl⟩, fun hk => by simp [Payload.kind] at hk⟩
              | exact ⟨fun hk => by simp [Payload.kind] at hk, fun _ => rfl⟩
              | exact ⟨fun hk => by simp [Payload.kind] at hk,
                       fun hk => by simp [Payload.kind] at hk⟩
          | some r =>
            simp only [handle, handleJoinRoom, hsess, hcur, hpn, ne_eq,
              not_false_eq_true, if_true, hroom, List.cons_append, List.nil_append,
              List.mem_cons, List.not_mem_nil, or_false] at hm
            rcases hm with rfl | rfl | rfl | rfl | rfl | rfl
            all_goals first
              | exact ⟨fun _ => ⟨_, rfl⟩, fun hk => by simp [Payload.kind] at hk⟩
              | exact ⟨fun hk => by simp [Payload.kind] at hk, fun _ => rfl⟩
              | exact ⟨fun hk => by simp [Payload.kind] at hk,
                       fun hk => by simp [Payload.kind] at hk⟩
  | sendMessage cid text dbNow now =>
    cases hsess : s.sessions cid with
    | none => simp [handle, handleSendMessage, hsess] at hm
    | some sess =>
      cases hcur : sess.currentRoom with
      | none =>
        simp only [handle, handleSendMessage, hsess, hcur, List.mem_singleton] at hm
        subst hm
        exact ⟨fun hk => by simp [Payload.kind] at hk,
               fun hk => by simp [Payload.kind] at hk⟩
      | some c =>
        cases hsv : database.saveMessage s.db c sess.username text dbNow now with
        | none =>
          simp only [handle, handleSendMessage, hsess, hcur, hsv,
            List.mem_singleton] at hm
          subst hm
          exact ⟨fun hk => by simp [Payload.kind] at hk,
                 fun hk => by simp [Payload.kind] at hk⟩
        | some pr =>
          obtain ⟨saved, db'⟩ := pr
          simp only [handle, handleSendMessage, hsess, hcur, hsv, List.mem_cons,
            List.not_mem_nil, or_false] at hm
          rcases hm with rfl | rfl
          · exact ⟨fun hk => by simp [Payload.kind] at hk,
                   fun hk => by simp [Payload.kind] at hk⟩
          · exact ⟨fun hk => by simp [Payload.kind] at hk, fun _ => rfl⟩
  | typing cid isTyping =>
    cases hsess : s.sessions cid with
    | none => simp [handle, handleTyping, hsess] at hm
    | some sess =>
      cases hcur : sess.currentRoom with
      | none => simp [handle, handleTyping, hsess, hcur] at hm
      | some c =>
        simp only [handle, handleTyping, hsess, hcur, List.mem_singleton] at hm
        subst hm
        exact ⟨fun _ => ⟨_, rfl⟩, fun hk => by simp [Payload.kind] at hk⟩
  | createRoom cid name =>
    cases hsess : s.sessions cid with
    | none => simp [handle, handleCreateRoom, hsess] at hm
    | some sess =>
      by_cases hex : database.roomExists s.db name = true
      · simp only [handle, handleCreateRoom, hsess, hex, if_true,
          List.mem_singleton] at hm
        subst hm
        exact ⟨fun hk => by simp [Payload.kind] at hk,
               fun hk => by simp [Payload.kind] at hk⟩
      · have hex' : database.roomExists s.db name = false := by simpa using hex
        have hany := database.any_eq_false_of_not_roomExists hex'
        simp [handle, handleCreateRoom, hsess, hex', database.createRoom, hany] at hm
        rcases hm with rfl | rfl
        · exact ⟨fun hk => by simp [Payload.kind] at hk, fun _ => rfl⟩
        · exact ⟨fun hk => by simp [Payload.kind] at hk,
                 fun hk => by simp [Payload.kind] at hk⟩
  | disconnect cid now =>
    cases hsess : s.sessions cid with
    | none => simp [handle, handleDisconnect, hsess] at hm
    | some sess =>
      cases hcur : sess.currentRoom with
      | none => simp [handle, handleDisconnect, hsess, hcur] at hm
      | some c =>
        simp only [handle, handleDisconnect, hsess, hcur, List.mem_cons,
          List.not_mem_nil, or_false] at hm
        rcases hm with rfl | rfl
        · exact ⟨fun _ => ⟨_, rfl⟩, fun hk => by simp [Payload.kind] at hk⟩
        · exact ⟨fun hk => by simp [Payload.kind] at hk, fun _ => rfl⟩

/-- C5: membership-change notices (`user_joined`, `user_left`) are always
addressed to the affected room's occupants minus the acting connection —
their recipient set, in any state, never contains the actor and lies
inside the room's presence set — while every `room_updated` and
`room_created` emission is addressed to all connected clients, whatever
room each is in. -/
theorem broadcast_audience_rule (s : ServerState) (e : Event) (em : Emit)
    (h : em ∈ (handle s e).2) :
    ((em.pay.kind = PKind.userJoinedK ∨ em.pay.kind = PKind.userLeftK) →
      ∃ r, em.aud = Aud.roomOthers r e.actor ∧
        ∀ t c, receives t em.aud c → c ≠ e.actor ∧ c ∈ members t r) ∧
    ((em.pay.kind = PKind.roomUpdatedK ∨ em.pay.kind = PKind.roomCreatedK) →
      em.aud = Aud.all ∧ ∀ t c u, t.sessions c = some u → receives t em.aud c) := by
  obtain ⟨h1, h2⟩ := emitOk_handle s e em h
  constructor
  · intro hk
    obtain ⟨r, hr⟩ := h1 hk
    refine ⟨r, hr, ?_⟩
    intro t c hc
    rw [hr] at hc
    exact ⟨hc.2, hc.1⟩
  · intro hk
    refine ⟨h2 hk, ?_⟩
    intro t c u hu
    rw [h2 hk]
    simp [receives, hu]

/-- Witness for C5: the `user_left` notice of socket 0 disconnecting from
General is addressed to General's other occupants, and its recipient set
in any state excludes socket 0 and stays inside the room. -/
theorem broadcast_audience_rule_witness :
    ∃ r, (⟨Aud.roomOthers "General" 0,
        Payload.userLeft "Anonymous-1" "Anonymous-1 left the room" 5⟩ : Emit).aud =
      Aud.roomOthers r (Event.disconnect 0 5).actor ∧
      ∀ t c, receives t (⟨Aud.roomOthers "General" 0,
          Payload.userLeft "Anonymous-1" "Anonymous-1 left the room" 5⟩ : Emit).aud c →
        c ≠ (Event.disconnect 0 5).actor ∧ c ∈ members t r :=
  (broadcast_audience_rule stInGeneral (.disconnect 0 5) _ (by decide)).1 (Or.inr rfl)
